import Mathlib

/-!
Shallow embedding of the tldr backend (license issuance, verification and
summarisation gateway) from src/tldr-backend/server.js and the variants in
src/unnamed/part_000. Strings are modelled as lists of characters; the
external collaborators (Supabase record store, OpenRouter relay, Resend
mailer, JSON.parse) are modelled as explicit parameters: boolean failure
flags, a relay-outcome value and a parse function.
-/

set_option maxHeartbeats 1000000
set_option maxRecDepth 20000

namespace TLDR

/-- Strings of the JS runtime, modelled as lists of characters. -/
abbrev Str := List Char

/-- Whitespace as matched by the source's trim and regex \s
(restricted to the ASCII whitespace characters). -/
def isWs (c : Char) : Bool :=
  c == ' ' || c == '\t' || c == '\n' || c == '\r' ||
  c == Char.ofNat 11 || c == Char.ofNat 12

/-- Left part of JS String.prototype.trim. -/
def ltrim (s : Str) : Str := s.dropWhile isWs

/-- Right part of JS String.prototype.trim. -/
def rtrim (s : Str) : Str := (s.reverse.dropWhile isWs).reverse

/-- JS String.prototype.trim: whitespace removed from both ends. -/
def trim (s : Str) : Str := rtrim (ltrim s)

/-- The backtick character. -/
def tick : Char := '\x60'

/-- The code-fence marker, three backticks. -/
def fence : Str := [tick, tick, tick]

/-- The code-fence marker with json language tag. -/
def fenceJson : Str := [tick, tick, tick, 'j', 's', 'o', 'n']

/-- Case-insensitive literal pattern match at the head of a string:
returns the remainder on a match, none otherwise. Models the anchored
case-insensitive regex literal part. -/
def icaseStrip : Str → Str → Option Str
  | [], s => some s
  | _ :: _, [] => none
  | p :: ps, c :: cs =>
      if p.toLower == c.toLower then icaseStrip ps cs else none

/-- Models s.replace(new anchored-at-start case-insensitive regex of a
literal pattern followed by \s*, with the empty string): if the pattern
matches at the head, remove it and the following whitespace run. -/
def stripLead (pat s : Str) : Str :=
  match icaseStrip pat s with
  | some rest => rest.dropWhile isWs
  | none => s

/-- Models s.replace of a literal pattern followed by \s* anchored at the
end: the leftmost such match is the last occurrence of the pattern with
only whitespace after it, so it removes the trailing whitespace run and
the pattern; no change when the whitespace-stripped string does not end
with the pattern. -/
def stripTrail (pat s : Str) : Str :=
  match icaseStrip pat.reverse (rtrim s).reverse with
  | some rest => rest.reverse
  | none => s

/-- Relay-content normalization from server.js line 101-102:
content.trim(), strip a leading fence with json tag, strip a leading
bare fence, strip a trailing fence, trim again. -/
def normalizeRelayContent (s : Str) : Str :=
  trim (stripTrail fence (stripLead fence (stripLead fenceJson (trim s))))

/-- A row of the licenses table, with the columns the webhook handler
inserts (server.js lines 154-160; id is store-generated and unused). -/
structure License where
  key : Str
  email : Option Str
  stripe_session_id : Str
  active : Bool
  created_at : Str
deriving DecidableEq

/-- A row of the usage table (server.js lines 105-108). -/
structure UsageRow where
  license_key : Str
  created_at : Str
deriving DecidableEq

/-- The persisted state: the licenses and usage tables. -/
structure Store where
  licenses : List License
  usage : List UsageRow
deriving DecidableEq

/-- The supabase query of verifyLicense (server.js lines 32-37):
select rows with key = k and active = true; .single() yields data on
exactly one row and an error (hence no data) otherwise. -/
def licenseQuery (st : List License) (k : Str) : Option License :=
  match st.filter (fun l => l.key == k && l.active) with
  | [l] => some l
  | _ => none

/-- verifyLicense (server.js lines 31-40): on a store-layer error or on a
query yielding no single row, return null; otherwise return the row.
The storeErr flag models a store-layer failure of the lookup. -/
def verifyLicense (storeErr : Bool) (st : List License) (k : Str) :
    Option License :=
  if storeErr then none
  else licenseQuery st k

/-- Lowercase hexadecimal digit of a value below 16, as produced by
Buffer.toString with base hex. -/
def hexDigitLower (n : Nat) : Char :=
  if n < 10 then Char.ofNat (48 + n) else Char.ofNat (87 + n)

/-- Lowercase hexadecimal rendering of one byte (two digits). -/
def byteToHex (b : Nat) : Str :=
  [hexDigitLower (b / 16), hexDigitLower (b % 16)]

/-- One key segment: crypto.randomBytes(3).toString hex, then
toUpperCase (server.js line 26), over the three byte values drawn. -/
def segHex (b0 b1 b2 : Nat) : Str :=
  (byteToHex b0 ++ byteToHex b1 ++ byteToHex b2).map Char.toUpper

/-- generateLicenseKey (server.js lines 25-28), parameterised by the nine
random byte values the three randomBytes calls draw. -/
def generateLicenseKey (b : Fin 9 → Nat) : Str :=
  ('T' :: 'L' :: 'D' :: 'R' :: '-' :: []) ++
    segHex (b 0) (b 1) (b 2) ++
    ('-' :: segHex (b 3) (b 4) (b 5)) ++
    ('-' :: segHex (b 6) (b 7) (b 8))

/-- Uppercase hexadecimal digit test, for the key-format property. -/
def isUpperHexDigit (c : Char) : Bool :=
  (48 ≤ c.toNat && c.toNat ≤ 57) || (65 ≤ c.toNat && c.toNat ≤ 70)

/-- A key segment of exactly six uppercase hexadecimal characters. -/
def hexSeg6 (t : Str) : Bool :=
  t.length == 6 && t.all isUpperHexDigit

/-- JS falsiness of an optional string request field: absent or empty. -/
def falsy : Option Str → Bool
  | none => true
  | some s => s.isEmpty

/-- The parsed summary object the gateway expects from the relay. -/
structure Summary where
  headline : Str
  bullets : List Str
  readTime : Str
deriving DecidableEq

/-- Behaviour of the external AI relay on one call: the fetch throws or
the response envelope is unusable, the response is non-ok carrying an
optional upstream error message, or it is ok with a message content. -/
inductive RelayOutcome where
  | unreachable
  | httpError (msg : Option Str)
  | ok (content : Str)
deriving DecidableEq

/-- The caller-facing outcome of POST /summarise: 400 missing input,
403 invalid license, 502 relay error, 500 internal error (the catch-all,
including JSON.parse failure), or 200 with the parsed summary. -/
inductive SummariseResult where
  | missingInput
  | invalidLicense
  | relayError (msg : Str)
  | internalError
  | success (s : Summary)
deriving DecidableEq

/-- One run of the summarise handler: its result plus a trace of whether
the relay was invoked, the page text forwarded to it, and the usage rows
written. -/
structure GatewayRun where
  result : SummariseResult
  relayCalled : Bool
  forwardedText : Option Str
  forwardedPrompt : Option Str
  usageWritten : List UsageRow
deriving DecidableEq

/-- The user message of the relay request (server.js line 89): the JS
template literal interpolates an absent title as the text undefined. -/
def userMessage (title : Option Str) (trimmed : Str) : Str :=
  ('P' :: 'a' :: 'g' :: 'e' :: ' ' :: 't' :: 'i' :: 't' :: 'l' :: 'e' ::
    ':' :: ' ' :: []) ++
  title.getD ('u' :: 'n' :: 'd' :: 'e' :: 'f' :: 'i' :: 'n' :: 'e' ::
    'd' :: []) ++
  ('\n' :: '\n' :: 'P' :: 'a' :: 'g' :: 'e' :: ' ' :: 'c' :: 'o' :: 'n' ::
    't' :: 'e' :: 'n' :: 't' :: ':' :: '\n' :: []) ++ trimmed

/-- POST /summarise (server.js lines 46-116). storeErr models a failing
license lookup, usageFails a failing usage insert (the supabase client
reports insert errors as values, which line 105 ignores), relay the
relay's behaviour, parse the ambient JSON.parse. The title, when absent,
interpolates as the text undefined, as the JS template literal does. -/
def summarise (storeErr : Bool) (licenses : List License)
    (relay : RelayOutcome) (usageFails : Bool)
    (parse : Str → Option Summary)
    (licenseKey text title : Option Str) (now : Str) : GatewayRun :=
  if falsy licenseKey || falsy text then
    ⟨.missingInput, false, none, none, []⟩
  else
    match verifyLicense storeErr licenses (licenseKey.getD []) with
    | none => ⟨.invalidLicense, false, none, none, []⟩
    | some _ =>
      let trimmed := (text.getD []).take 6000
      let prompt := userMessage title trimmed
      match relay with
      | .unreachable => ⟨.internalError, true, some trimmed, some prompt, []⟩
      | .httpError m =>
          ⟨.relayError (m.getD ('A' :: 'I' :: ' ' :: 'A' :: 'P' :: 'I' ::
            ' ' :: 'e' :: 'r' :: 'r' :: 'o' :: 'r' :: [])),
           true, some trimmed, some prompt, []⟩
      | .ok content =>
          let raw := normalizeRelayContent content
          let usage : List UsageRow :=
            if usageFails then [] else [⟨licenseKey.getD [], now⟩]
          match parse raw with
          | some s => ⟨.success s, true, some trimmed, some prompt, usage⟩
          | none => ⟨.internalError, true, some trimmed, some prompt, usage⟩

/-- One run of GET /verify: the response body's valid flag, the HTTP
status, and whether a store lookup was performed. -/
structure VerifyRun where
  valid : Bool
  status : Nat
  lookupPerformed : Bool
deriving DecidableEq

/-- GET /verify (server.js lines 122-127): a falsy key answers 400 with
valid false before any store lookup; otherwise the verifier is consulted
and valid mirrors whether it found an active license. -/
def verifyEndpoint (storeErr : Bool) (st : List License)
    (key : Option Str) : VerifyRun :=
  if falsy key then ⟨false, 400, false⟩
  else
    match verifyLicense storeErr st (key.getD []) with
    | some _ => ⟨true, 200, true⟩
    | none => ⟨false, 200, true⟩

/-- A verified Stripe event as delivered by constructEvent (signature
verification is the external event source's responsibility): either a
completed checkout session with its id and optional customer email, or
any other event type. -/
inductive StripeEvent where
  | checkoutCompleted (sessionId : Str) (customerEmail : Option Str)
  | otherEvent (eventType : Str)
deriving DecidableEq

/-- The webhook handler's acknowledgement to the event source: 500 on a
failed license insert, otherwise the received acknowledgement. -/
inductive WebhookResult where
  | insertFailed
  | received
deriving DecidableEq

/-- POST /webhook (server.js lines 148-175), after signature
verification, parameterised by the key the generator draws and the
clock. On a completed checkout it always generates a fresh key and
inserts a new license row; no lookup by session id is performed. -/
def handleWebhook (insertFails : Bool) (st : Store) (ev : StripeEvent)
    (freshKey now : Str) : WebhookResult × Store :=
  match ev with
  | .checkoutCompleted sid email =>
      if insertFails then (.insertFailed, st)
      else
        (.received,
         { st with licenses :=
             st.licenses ++ [⟨freshKey, email, sid, true, now⟩] })
  | .otherEvent _ => (.received, st)

/-- An email handed to the Resend mailer: its recipient and the license
key its body carries. -/
structure EmailMessage where
  recipient : Str
  carriesKey : Str
deriving DecidableEq

/-- One run of the webhook variant that sends the license email: the
acknowledgement, the resulting store, and the email delivered (none when
the mailer failed or no issuance happened). -/
structure WebhookEmailRun where
  result : WebhookResult
  store : Store
  emailDelivered : Option EmailMessage
deriving DecidableEq

/-- POST /webhook of the Resend variant (src/unnamed/part_000 lines
319-372): after a successful license insert it attempts the license
email inside its own try block; a mailer failure is caught, logged and
swallowed, so the acknowledgement is unchanged. -/
def handleWebhookEmail (insertFails emailFails : Bool) (st : Store)
    (ev : StripeEvent) (freshKey now : Str) : WebhookEmailRun :=
  match ev with
  | .checkoutCompleted sid email =>
      if insertFails then ⟨.insertFailed, st, none⟩
      else
        let st' : Store :=
          { st with licenses :=
              st.licenses ++ [⟨freshKey, email, sid, true, now⟩] }
        if emailFails then ⟨.received, st', none⟩
        else ⟨.received, st', some ⟨email.getD [], freshKey⟩⟩
  | .otherEvent _ => ⟨.received, st, none⟩

/-! ## Shared concrete fixtures for witnesses -/

/-- A well-formed sample license key. -/
def sampleKey : Str :=
  ('T' :: 'L' :: 'D' :: 'R' :: '-' :: 'A' :: 'B' :: '1' :: '2' :: 'C' ::
   'D' :: '-' :: '3' :: '4' :: 'E' :: 'F' :: '5' :: '6' :: '-' :: 'A' ::
   'B' :: 'C' :: 'D' :: 'E' :: 'F' :: [])

/-- An active sample license holding the sample key. -/
def sampleLicense : License :=
  ⟨sampleKey, none, ('s' :: '1' :: []), true, []⟩

/-- The sample license with active flipped off (revoked). -/
def sampleRevoked : License :=
  ⟨sampleKey, none, ('s' :: '1' :: []), false, []⟩

/-- A sample page text. -/
def sampleText : Str := ('h' :: 'i' :: [])

/-! ## Claim theorems -/

/-- C2: verify fails closed to the single value none (NotFound) when the
store lookup errors, and likewise when no active record with the key
exists — covering both a never-issued key and a revoked one — so the
caller cannot distinguish the three cases. -/
theorem C2_verify_fail_closed (storeErr : Bool) (st : List License)
    (k : Str)
    (h : storeErr = true ∨ ∀ l ∈ st, l.key = k → l.active = false) :
    verifyLicense storeErr st k = none := by
  rcases h with h | h
  · simp [verifyLicense, h]
  · cases storeErr with
    | true => simp [verifyLicense]
    | false =>
      have hf : st.filter (fun l => l.key == k && l.active) = [] := by
        rw [List.filter_eq_nil_iff]
        intro l hl
        simp only [Bool.and_eq_true, beq_iff_eq, not_and]
        intro hk
        simp [h l hl hk]
      simp [verifyLicense, licenseQuery, hf]

/-- C2 witness: a store error with a matching active record present, a
never-issued key, and a revoked key all verify to none. -/
theorem C2_verify_fail_closed_witness :
    verifyLicense true [sampleLicense] sampleKey = none ∧
    verifyLicense false [] sampleKey = none ∧
    verifyLicense false [sampleRevoked] sampleKey = none :=
  ⟨C2_verify_fail_closed true [sampleLicense] sampleKey (Or.inl rfl),
   C2_verify_fail_closed false [] sampleKey (Or.inr (by decide)),
   C2_verify_fail_closed false [sampleRevoked] sampleKey
     (Or.inr (by decide))⟩

/-- C3: a summarise request with an absent or empty licenseKey or text
is rejected with the missing-input error, and one whose license fails
verification is rejected with the invalid-license error; in both cases
the relay is never invoked and no usage row is written. -/
theorem C3_checks_precede_relay (storeErr : Bool) (ls : List License)
    (relay : RelayOutcome) (usageFails : Bool)
    (parse : Str → Option Summary) (lk text title : Option Str)
    (now : Str) :
    ((falsy lk || falsy text) = true →
      summarise storeErr ls relay usageFails parse lk text title now =
        ⟨.missingInput, false, none, none, []⟩) ∧
    ((falsy lk || falsy text) = false →
      verifyLicense storeErr ls (lk.getD []) = none →
      summarise storeErr ls relay usageFails parse lk text title now =
        ⟨.invalidLicense, false, none, none, []⟩) := by
  constructor
  · intro h
    simp [summarise, h]
  · intro h hv
    simp [summarise, h, hv]

/-- C3 witness: a request with no license key is rejected as missing
input, and a request with an unknown key over an empty store is rejected
as invalid license; neither run calls the relay or writes usage. -/
theorem C3_checks_precede_relay_witness :
    summarise false [] (.ok sampleText) false (fun _ => none) none
        (some sampleText) none [] =
      ⟨.missingInput, false, none, none, []⟩ ∧
    summarise false [] (.ok sampleText) false (fun _ => none)
        (some sampleKey) (some sampleText) none [] =
      ⟨.invalidLicense, false, none, none, []⟩ :=
  ⟨(C3_checks_precede_relay false [] (.ok sampleText) false (fun _ => none)
      none (some sampleText) none []).1 (by decide),
   (C3_checks_precede_relay false [] (.ok sampleText) false (fun _ => none)
      (some sampleKey) (some sampleText) none []).2 (by decide) (by decide)⟩

/-- C4 counterexample: with a valid license and a relay response whose
content does not parse as JSON, the gateway's result is the generic
internal error — the very value produced by an unrelated internal
failure such as an unreachable relay — not a distinct malformed-response
category (none exists in the code). -/
theorem C4_counterexample :
    (summarise false [sampleLicense] (.ok ('h' :: 'i' :: [])) false
        (fun _ => none) (some sampleKey) (some sampleText) none
        []).result = SummariseResult.internalError ∧
    (summarise false [sampleLicense] RelayOutcome.unreachable false
        (fun _ => none) (some sampleKey) (some sampleText) none
        []).result = SummariseResult.internalError := by
  constructor <;> decide

/-- C4 amended: with a valid license, when the relay responds
successfully but its content, after fence stripping, does not parse as
JSON, the gateway rejects with the generic internal error (HTTP 500),
the same category as any other internal failure. -/
theorem C4_parse_failure_internal (storeErr : Bool) (ls : List License)
    (usageFails : Bool) (parse : Str → Option Summary)
    (lk text title : Option Str) (now : Str) (content : Str)
    (hin : (falsy lk || falsy text) = false)
    (l : License)
    (hv : verifyLicense storeErr ls (lk.getD []) = some l)
    (hp : parse (normalizeRelayContent content) = none) :
    (summarise storeErr ls (.ok content) usageFails parse lk text title
      now).result = SummariseResult.internalError := by
  simp [summarise, hin, hv, hp]

/-- C4 amended witness: a concrete parse failure on a valid license
yields the internal error. -/
theorem C4_parse_failure_internal_witness :
    (summarise false [sampleLicense] (.ok ('h' :: 'i' :: [])) false
        (fun _ => none) (some sampleKey) (some sampleText) none
        []).result = SummariseResult.internalError :=
  C4_parse_failure_internal false [sampleLicense] false (fun _ => none)
    (some sampleKey) (some sampleText) none [] ('h' :: 'i' :: [])
    (by decide) sampleLicense (by decide) rfl

/-- C5: when the relay content parses to a summary, the result is that
summary whether or not the usage insert fails: a usage-recording failure
never prevents returning the parsed summary. -/
theorem C5_usage_failure_not_blocking (storeErr : Bool)
    (ls : List License) (parse : Str → Option Summary)
    (lk text title : Option Str) (now : Str) (content : Str)
    (s : Summary)
    (hin : (falsy lk || falsy text) = false)
    (l : License)
    (hv : verifyLicense storeErr ls (lk.getD []) = some l)
    (hp : parse (normalizeRelayContent content) = some s) :
    ∀ usageFails : Bool,
      (summarise storeErr ls (.ok content) usageFails parse lk text
        title now).result = SummariseResult.success s := by
  intro usageFails
  simp [summarise, hin, hv, hp]

/-- C5 witness: with a failing usage insert the parsed summary is still
returned. -/
theorem C5_usage_failure_not_blocking_witness :
    (summarise false [sampleLicense] (.ok ('h' :: 'i' :: [])) true
        (fun _ => some ⟨[], [], []⟩) (some sampleKey) (some sampleText)
        none []).result = SummariseResult.success ⟨[], [], []⟩ :=
  C5_usage_failure_not_blocking false [sampleLicense]
    (fun _ => some ⟨[], [], []⟩) (some sampleKey) (some sampleText) none
    [] ('h' :: 'i' :: []) ⟨[], [], []⟩ (by decide) sampleLicense
    (by decide) rfl true

/-- C6: whenever a summarise request passes the input and license checks
(so the relay is called), the page text forwarded to the relay is
exactly the first min(length, 6000) characters of the input text,
whatever the relay then does; no error is returned for the truncation
itself. -/
theorem C6_truncation (storeErr : Bool) (ls : List License)
    (relay : RelayOutcome) (usageFails : Bool)
    (parse : Str → Option Summary) (lk text title : Option Str)
    (now : Str)
    (hin : (falsy lk || falsy text) = false)
    (l : License)
    (hv : verifyLicense storeErr ls (lk.getD []) = some l) :
    (summarise storeErr ls relay usageFails parse lk text title
        now).forwardedText = some ((text.getD []).take 6000) ∧
    ((text.getD []).take 6000).length = min (text.getD []).length 6000 := by
  refine ⟨?_, by simp [List.length_take, Nat.min_comm]⟩
  cases relay with
  | unreachable => simp [summarise, hin, hv]
  | httpError m => simp [summarise, hin, hv]
  | ok content =>
    cases hp : parse (normalizeRelayContent content) <;>
      simp [summarise, hin, hv, hp]

/-- C6 witness: a 10000-character input is forwarded as exactly its
first 6000 characters. -/
theorem C6_truncation_witness :
    (summarise false [sampleLicense] (.ok ('h' :: 'i' :: [])) false
        (fun _ => none) (some sampleKey)
        (some (List.replicate 10000 'a')) none []).forwardedText =
      some (List.replicate 6000 'a') ∧
    (List.replicate 6000 'a' : Str).length = 6000 := by
  have hin : (falsy (some sampleKey) ||
      falsy (some (List.replicate 10000 'a'))) = false := by
    have h1 : falsy (some sampleKey) = false := by decide
    have h2 : falsy (some (List.replicate 10000 'a')) = false := by
      simp [falsy, List.isEmpty_eq_true]
    rw [h1, h2]
    rfl
  have h := C6_truncation false [sampleLicense] (.ok ('h' :: 'i' :: []))
    false (fun _ => none) (some sampleKey)
    (some (List.replicate 10000 'a')) none [] hin sampleLicense
    (by decide)
  refine ⟨?_, by rw [List.length_replicate]⟩
  rw [h.1, Option.getD_some, List.take_replicate,
    show min 6000 10000 = 6000 from rfl]

/-- C10: a /verify request whose key is absent or empty answers with
valid false (HTTP 400) and performs no store lookup. -/
theorem C10_missing_key_no_lookup (storeErr : Bool) (st : List License)
    (key : Option Str) (h : falsy key = true) :
    verifyEndpoint storeErr st key = ⟨false, 400, false⟩ := by
  simp [verifyEndpoint, h]

/-- C10 witness: both an absent key and an empty key answer valid false
with no lookup, even over a store holding an active license. -/
theorem C10_missing_key_no_lookup_witness :
    verifyEndpoint false [sampleLicense] none = ⟨false, 400, false⟩ ∧
    verifyEndpoint false [sampleLicense] (some []) =
      ⟨false, 400, false⟩ :=
  ⟨C10_missing_key_no_lookup false [sampleLicense] none (by decide),
   C10_missing_key_no_lookup false [sampleLicense] (some [])
     (by decide)⟩

/-- A second well-formed sample license key, distinct from sampleKey. -/
def sampleKey2 : Str :=
  ('T' :: 'L' :: 'D' :: 'R' :: '-' :: '0' :: '0' :: '1' :: '2' :: 'C' ::
   'D' :: '-' :: '3' :: '4' :: 'E' :: 'F' :: '5' :: '6' :: '-' :: 'A' ::
   'B' :: 'C' :: 'D' :: 'E' :: 'F' :: [])

/-- C1 (refuting the claim on the code): delivering the same completed
checkout event (same session id) twice to the webhook handler performs
no lookup by transaction reference: both deliveries report success and
the store ends with two License records for that one session id, under
two distinct generated keys. -/
theorem C1_duplicate_issuance :
    (handleWebhook false
        (handleWebhook false ⟨[], []⟩
          (StripeEvent.checkoutCompleted ('s' :: '1' :: []) none)
          sampleKey []).2
        (StripeEvent.checkoutCompleted ('s' :: '1' :: []) none)
        sampleKey2 []).1 = WebhookResult.received ∧
    (handleWebhook false ⟨[], []⟩
        (StripeEvent.checkoutCompleted ('s' :: '1' :: []) none)
        sampleKey []).1 = WebhookResult.received ∧
    ((handleWebhook false
        (handleWebhook false ⟨[], []⟩
          (StripeEvent.checkoutCompleted ('s' :: '1' :: []) none)
          sampleKey []).2
        (StripeEvent.checkoutCompleted ('s' :: '1' :: []) none)
        sampleKey2 []).2.licenses.filter
        (fun l => l.stripe_session_id == ('s' :: '1' :: []))).length = 2 ∧
    sampleKey ≠ sampleKey2 := by
  refine ⟨rfl, rfl, rfl, ?_⟩
  decide

/-- C9: when the license insert succeeds, a failing email delivery does
not change the issuance's reported outcome — the handler still
acknowledges success, exactly as in the run where the email succeeds —
and the License record is present afterwards and verifies as active. -/
theorem C9_email_failure_frame (st : Store) (sid : Str)
    (email : Option Str) (freshKey now : Str) (emailFails : Bool)
    (hfresh : ∀ l ∈ st.licenses, l.key ≠ freshKey) :
    (handleWebhookEmail false emailFails st
        (.checkoutCompleted sid email) freshKey now).result =
      WebhookResult.received ∧
    (handleWebhookEmail false emailFails st
        (.checkoutCompleted sid email) freshKey now).result =
      (handleWebhookEmail false false st
        (.checkoutCompleted sid email) freshKey now).result ∧
    verifyLicense false
        (handleWebhookEmail false emailFails st
          (.checkoutCompleted sid email) freshKey now).store.licenses
        freshKey = some ⟨freshKey, email, sid, true, now⟩ := by
  have hnil : st.licenses.filter
      (fun l => l.key == freshKey && l.active) = [] := by
    rw [List.filter_eq_nil_iff]
    intro l hl
    simp [hfresh l hl]
  cases emailFails <;>
    simp [handleWebhookEmail, verifyLicense, licenseQuery,
      List.filter_append, hnil]

/-- C9 witness: on an empty store, with the mailer throwing, issuance
still acknowledges success (same outcome as with a working mailer) and
the new license verifies as active. -/
theorem C9_email_failure_frame_witness :
    (handleWebhookEmail false true ⟨[], []⟩
        (.checkoutCompleted ('s' :: '1' :: []) none) sampleKey
        []).result = WebhookResult.received ∧
    (handleWebhookEmail false true ⟨[], []⟩
        (.checkoutCompleted ('s' :: '1' :: []) none) sampleKey
        []).result =
      (handleWebhookEmail false false ⟨[], []⟩
        (.checkoutCompleted ('s' :: '1' :: []) none) sampleKey
        []).result ∧
    verifyLicense false
        (handleWebhookEmail false true ⟨[], []⟩
          (.checkoutCompleted ('s' :: '1' :: []) none) sampleKey
          []).store.licenses sampleKey =
      some ⟨sampleKey, none, ('s' :: '1' :: []), true, []⟩ :=
  C9_email_failure_frame ⟨[], []⟩ ('s' :: '1' :: []) none sampleKey []
    true (by decide)

/-- Each uppercased lowercase hex digit is an uppercase hex character. -/
theorem upperHexDigit_ok (n : Nat) (h : n < 16) :
    isUpperHexDigit ((hexDigitLower n).toUpper) = true := by
  have hall : ∀ m : Fin 16,
      isUpperHexDigit ((hexDigitLower m.val).toUpper) = true := by decide
  exact hall ⟨n, h⟩

/-- Uppercased hex digits are injective below 16. -/
theorem upperHexDigit_inj (m n : Nat) (hm : m < 16) (hn : n < 16)
    (h : (hexDigitLower m).toUpper = (hexDigitLower n).toUpper) :
    m = n := by
  have hall : ∀ a b : Fin 16,
      (hexDigitLower a.val).toUpper = (hexDigitLower b.val).toUpper →
        a = b := by decide
  exact congrArg Fin.val (hall ⟨m, hm⟩ ⟨n, hn⟩ h)

/-- A segment generated from three bytes is six uppercase hex chars. -/
theorem hexSeg6_segHex (x y z : Nat) (hx : x < 256) (hy : y < 256)
    (hz : z < 256) : hexSeg6 (segHex x y z) = true := by
  simp only [hexSeg6, segHex, byteToHex, List.cons_append, List.nil_append,
    List.map_cons, List.map_nil, List.all_cons, List.all_nil,
    List.length_cons, List.length_nil, Bool.and_eq_true, beq_iff_eq,
    and_true, true_and]
  refine ⟨?_, ?_, ?_, ?_, ?_, ?_⟩ <;>
    exact upperHexDigit_ok _ (by omega)

/-- C7: every generated key is the fixed TLDR prefix followed by three
hyphen-separated segments of exactly six uppercase hexadecimal
characters, and the generator is injective in the nine random bytes
drawn, so distinct byte draws always yield distinct keys (the basis of
the overwhelming-probability distinctness of N generated keys). -/
theorem C7_key_format_and_injective (b b' : Fin 9 → Nat)
    (hb : ∀ i, b i < 256) (hb' : ∀ i, b' i < 256) :
    (∃ s1 s2 s3, generateLicenseKey b =
        ('T' :: 'L' :: 'D' :: 'R' :: '-' :: []) ++ s1 ++ ('-' :: s2) ++
          ('-' :: s3) ∧
      hexSeg6 s1 = true ∧ hexSeg6 s2 = true ∧ hexSeg6 s3 = true) ∧
    (generateLicenseKey b = generateLicenseKey b' → ∀ i, b i = b' i) := by
  constructor
  · refine ⟨segHex (b 0) (b 1) (b 2), segHex (b 3) (b 4) (b 5),
      segHex (b 6) (b 7) (b 8), rfl, ?_, ?_, ?_⟩ <;>
      exact hexSeg6_segHex _ _ _ (hb _) (hb _) (hb _)
  · intro h
    have u0 := hb 0; have u1 := hb 1; have u2 := hb 2
    have u3 := hb 3; have u4 := hb 4; have u5 := hb 5
    have u6 := hb 6; have u7 := hb 7; have u8 := hb 8
    have v0 := hb' 0; have v1 := hb' 1; have v2 := hb' 2
    have v3 := hb' 3; have v4 := hb' 4; have v5 := hb' 5
    have v6 := hb' 6; have v7 := hb' 7; have v8 := hb' 8
    have h' :
        ('T' :: 'L' :: 'D' :: 'R' :: '-' ::
         (hexDigitLower (b 0 / 16)).toUpper ::
         (hexDigitLower (b 0 % 16)).toUpper ::
         (hexDigitLower (b 1 / 16)).toUpper ::
         (hexDigitLower (b 1 % 16)).toUpper ::
         (hexDigitLower (b 2 / 16)).toUpper ::
         (hexDigitLower (b 2 % 16)).toUpper :: '-' ::
         (hexDigitLower (b 3 / 16)).toUpper ::
         (hexDigitLower (b 3 % 16)).toUpper ::
         (hexDigitLower (b 4 / 16)).toUpper ::
         (hexDigitLower (b 4 % 16)).toUpper ::
         (hexDigitLower (b 5 / 16)).toUpper ::
         (hexDigitLower (b 5 % 16)).toUpper :: '-' ::
         (hexDigitLower (b 6 / 16)).toUpper ::
         (hexDigitLower (b 6 % 16)).toUpper ::
         (hexDigitLower (b 7 / 16)).toUpper ::
         (hexDigitLower (b 7 % 16)).toUpper ::
         (hexDigitLower (b 8 / 16)).toUpper ::
         (hexDigitLower (b 8 % 16)).toUpper :: ([] : Str)) =
        ('T' :: 'L' :: 'D' :: 'R' :: '-' ::
         (hexDigitLower (b' 0 / 16)).toUpper ::
         (hexDigitLower (b' 0 % 16)).toUpper ::
         (hexDigitLower (b' 1 / 16)).toUpper ::
         (hexDigitLower (b' 1 % 16)).toUpper ::
         (hexDigitLower (b' 2 / 16)).toUpper ::
         (hexDigitLower (b' 2 % 16)).toUpper :: '-' ::
         (hexDigitLower (b' 3 / 16)).toUpper ::
         (hexDigitLower (b' 3 % 16)).toUpper ::
         (hexDigitLower (b' 4 / 16)).toUpper ::
         (hexDigitLower (b' 4 % 16)).toUpper ::
         (hexDigitLower (b' 5 / 16)).toUpper ::
         (hexDigitLower (b' 5 % 16)).toUpper :: '-' ::
         (hexDigitLower (b' 6 / 16)).toUpper ::
         (hexDigitLower (b' 6 % 16)).toUpper ::
         (hexDigitLower (b' 7 / 16)).toUpper ::
         (hexDigitLower (b' 7 % 16)).toUpper ::
         (hexDigitLower (b' 8 / 16)).toUpper ::
         (hexDigitLower (b' 8 % 16)).toUpper :: ([] : Str)) := h
    simp only [List.cons.injEq, and_true, true_and] at h'
    obtain ⟨e0a, e0b, e1a, e1b, e2a, e2b, e3a, e3b, e4a, e4b, e5a, e5b,
      e6a, e6b, e7a, e7b, e8a, e8b⟩ := h'
    have k0 : b 0 = b' 0 := by
      have := upperHexDigit_inj _ _ (by omega) (by omega) e0a
      have := upperHexDigit_inj _ _ (by omega) (by omega) e0b
      omega
    have k1 : b 1 = b' 1 := by
      have := upperHexDigit_inj _ _ (by omega) (by omega) e1a
      have := upperHexDigit_inj _ _ (by omega) (by omega) e1b
      omega
    have k2 : b 2 = b' 2 := by
      have := upperHexDigit_inj _ _ (by omega) (by omega) e2a
      have := upperHexDigit_inj _ _ (by omega) (by omega) e2b
      omega
    have k3 : b 3 = b' 3 := by
      have := upperHexDigit_inj _ _ (by omega) (by omega) e3a
      have := upperHexDigit_inj _ _ (by omega) (by omega) e3b
      omega
    have k4 : b 4 = b' 4 := by
      have := upperHexDigit_inj _ _ (by omega) (by omega) e4a
      have := upperHexDigit_inj _ _ (by omega) (by omega) e4b
      omega
    have k5 : b 5 = b' 5 := by
      have := upperHexDigit_inj _ _ (by omega) (by omega) e5a
      have := upperHexDigit_inj _ _ (by omega) (by omega) e5b
      omega
    have k6 : b 6 = b' 6 := by
      have := upperHexDigit_inj _ _ (by omega) (by omega) e6a
      have := upperHexDigit_inj _ _ (by omega) (by omega) e6b
      omega
    have k7 : b 7 = b' 7 := by
      have := upperHexDigit_inj _ _ (by omega) (by omega) e7a
      have := upperHexDigit_inj _ _ (by omega) (by omega) e7b
      omega
    have k8 : b 8 = b' 8 := by
      have := upperHexDigit_inj _ _ (by omega) (by omega) e8a
      have := upperHexDigit_inj _ _ (by omega) (by omega) e8b
      omega
    intro i
    fin_cases i
    exacts [k0, k1, k2, k3, k4, k5, k6, k7, k8]

/-- C7 witness: a concrete byte draw yields a key of the stated format,
and the injectivity instance at that draw holds. -/
theorem C7_key_format_and_injective_witness :
    (∃ s1 s2 s3, generateLicenseKey (fun i => i.val * 20) =
        ('T' :: 'L' :: 'D' :: 'R' :: '-' :: []) ++ s1 ++ ('-' :: s2) ++
          ('-' :: s3) ∧
      hexSeg6 s1 = true ∧ hexSeg6 s2 = true ∧ hexSeg6 s3 = true) ∧
    (generateLicenseKey (fun i => i.val * 20) =
        generateLicenseKey (fun i => i.val * 20) →
      ∀ i, (fun i : Fin 9 => i.val * 20) i =
        (fun i : Fin 9 => i.val * 20) i) :=
  C7_key_format_and_injective (fun i => i.val * 20) (fun i => i.val * 20)
    (by decide) (by decide)

/-- C8: for a relay content j (nonempty, not starting with whitespace
or a backtick, not ending with whitespace or a code fence — as any JSON
object text), the gateway's normalization maps j wrapped in code fences
with a json language tag, j wrapped in bare code fences, and unwrapped j
all to exactly j, so parsing the normalized wrapped forms yields the
same result as parsing the unwrapped j, and unfenced input is left
unchanged. -/
theorem C8_fence_strip_normalization (c : Char) (cs : Str)
    (P : Str → Option Summary)
    (hws : isWs c = false)
    (hbeq : (tick == c.toLower) = false)
    (hnws : List.dropWhile isWs (cs.reverse ++ [c]) = cs.reverse ++ [c])
    (hnof : icaseStrip fence (cs.reverse ++ [c]) = none) :
    normalizeRelayContent
        (fenceJson ++ '\n' :: ((c :: cs) ++ '\n' :: fence)) = c :: cs ∧
    normalizeRelayContent
        (fence ++ '\n' :: ((c :: cs) ++ '\n' :: fence)) = c :: cs ∧
    normalizeRelayContent (c :: cs) = c :: cs ∧
    P (normalizeRelayContent
        (fenceJson ++ '\n' :: ((c :: cs) ++ '\n' :: fence))) =
      P (c :: cs) ∧
    P (normalizeRelayContent
        (fence ++ '\n' :: ((c :: cs) ++ '\n' :: fence))) = P (c :: cs) := by
  have hwt : isWs tick = false := by decide
  have hwn : isWs '\n' = true := by decide
  have hlt : tick.toLower = tick := by decide
  have hjn : ('j'.toLower == Char.toLower '\n') = false := by decide
  have e1 : normalizeRelayContent
      (fenceJson ++ '\n' :: ((c :: cs) ++ '\n' :: fence)) = c :: cs := by
    simp [normalizeRelayContent, stripLead, stripTrail, trim, ltrim,
      rtrim, icaseStrip, fence, fenceJson, List.dropWhile_cons,
      List.cons_append, List.nil_append, List.append_assoc,
      List.reverse_cons, List.reverse_append, List.reverse_reverse,
      hws, hbeq, hnws, hnof, hwt, hwn, hlt, hjn]
  have e2 : normalizeRelayContent
      (fence ++ '\n' :: ((c :: cs) ++ '\n' :: fence)) = c :: cs := by
    simp [normalizeRelayContent, stripLead, stripTrail, trim, ltrim,
      rtrim, icaseStrip, fence, fenceJson, List.dropWhile_cons,
      List.cons_append, List.nil_append, List.append_assoc,
      List.reverse_cons, List.reverse_append, List.reverse_reverse,
      hws, hbeq, hnws, hnof, hwt, hwn, hlt, hjn]
  have hnof' : icaseStrip [tick, tick, tick] (cs.reverse ++ [c]) =
      none := hnof
  have e3 : normalizeRelayContent (c :: cs) = c :: cs := by
    simp [normalizeRelayContent, stripLead, stripTrail, trim, ltrim,
      rtrim, icaseStrip, fence, fenceJson, List.dropWhile_cons,
      List.cons_append, List.nil_append, List.append_assoc,
      List.reverse_cons, List.reverse_append, List.reverse_reverse,
      hws, hbeq, hnws, hnof', hwt, hwn, hlt, hjn]
  exact ⟨e1, e2, e3, congrArg P e1, congrArg P e2⟩

/-- C8 witness: a concrete JSON object text is recovered exactly from
its json-tagged fenced wrapping, and is left unchanged when unfenced. -/
theorem C8_fence_strip_normalization_witness :
    normalizeRelayContent (fenceJson ++ '\n' ::
        (('\x7b' :: ('\x22' :: 'o' :: 'k' :: '\x22' :: ':' :: '1' ::
          '\x7d' :: [])) ++ '\n' :: fence)) =
      '\x7b' :: ('\x22' :: 'o' :: 'k' :: '\x22' :: ':' :: '1' ::
        '\x7d' :: []) ∧
    normalizeRelayContent ('\x7b' :: ('\x22' :: 'o' :: 'k' :: '\x22' ::
        ':' :: '1' :: '\x7d' :: [])) =
      '\x7b' :: ('\x22' :: 'o' :: 'k' :: '\x22' :: ':' :: '1' ::
        '\x7d' :: []) :=
  ⟨(C8_fence_strip_normalization '\x7b'
      ('\x22' :: 'o' :: 'k' :: '\x22' :: ':' :: '1' :: '\x7d' :: [])
      (fun s => some ⟨s, [], []⟩) (by decide) (by decide) (by decide)
      (by decide)).1,
   (C8_fence_strip_normalization '\x7b'
      ('\x22' :: 'o' :: 'k' :: '\x22' :: ':' :: '1' :: '\x7d' :: [])
      (fun s => some ⟨s, [], []⟩) (by decide) (by decide) (by decide)
      (by decide)).2.2.1⟩

end TLDR
